import Mathlib

/-!
Verification of rtsp-simple-proxy (Go) against its specification.

The Go sources are shallowly embedded: pure fragments become Lean
functions, Go maps become association lists with unique keys, Go channels
become explicit bounded queues, goroutine interleavings become small-step
transition relations, byte buffers become `List Nat`, and `time.Time` /
`time.Duration` become `Nat` (nanoseconds; `second = 1000000000`).
-/

namespace RtspProxy

/-- Flow tag of a track packet, from `type trackFlow int` with constants
`_TRACK_FLOW_RTP` and `_TRACK_FLOW_RTCP` (part_000:24-29). -/
inductive TrackFlow where
  | rtp
  | rtcp
deriving DecidableEq, Repr

/-- Per-track client port binding, from `type track struct` (part_000:31-34). -/
structure Track where
  rtpPort : Nat
  rtcpPort : Nat
deriving DecidableEq, Repr

/-- Stream transport, from `type streamProtocol int` with constants
`_STREAM_PROTOCOL_UDP` and `_STREAM_PROTOCOL_TCP` (part_000:36-41). -/
inductive StreamProtocol where
  | udp
  | tcp
deriving DecidableEq, Repr

/-- Modelled from the spec: the serverClient type and its state constants are
not under src/; the spec lists the client state machine states
{init, described, setup-partial, ready, playing, teardown}.  The forwarding
code (part_000:247) only compares against `_CLIENT_STATE_PLAY` (`play`). -/
inductive ClientState where
  | init
  | described
  | setupPartial
  | ready
  | play
  | teardown
deriving DecidableEq, Repr

/-- Modelled from the spec: the serverClient struct is not under src/; the
fields below are exactly those read by `forwardTrack` (part_000:245-275):
`path`, `state`, `streamProtocol`, `ip`, `streamTracks`, plus an abstract
identity `id` standing for the client pointer (used to name the client's
own TCP writer queue `c.chanWrite`).  IP addresses are abstracted to `Nat`. -/
structure ServerClient where
  id : Nat
  path : String
  state : ClientState
  streamProtocol : StreamProtocol
  ip : Nat
  streamTracks : List Track
deriving DecidableEq, Repr

/-- UDP destination address, from `net.UDPAddr` as used in part_000:251-254. -/
structure UdpAddr where
  ip : Nat
  port : Nat
deriving DecidableEq, Repr

/-- An enqueue request for a UDP endpoint writer, from `type udpWrite`
(declared outside src/; its two fields `addr` and `buf` are visible at the
construction sites part_000:250-264). -/
structure UdpWrite where
  addr : UdpAddr
  buf : List Nat
deriving DecidableEq, Repr

/-- An interleaved TCP frame, from `gortsplib.InterleavedFrame` as
constructed in part_000:268-271. -/
structure InterleavedFrame where
  channel : Nat
  content : List Nat
deriving DecidableEq, Repr

/-- One enqueue performed by the forward step: on the RTP UDP endpoint's
writer queue (`p.rtpl.chanWrite`), on the RTCP UDP endpoint's writer queue
(`p.rtcpl.chanWrite`), or on a TCP client's own writer queue
(`c.chanWrite`), identified by the client's `id`. -/
inductive Emission where
  | rtpl (w : UdpWrite)
  | rtcpl (w : UdpWrite)
  | tcp (clientId : Nat) (f : InterleavedFrame)
deriving DecidableEq, Repr

/-- Modelled from the spec: `trackToInterleavedChannel` is called at
part_000:269 but defined outside src/; the spec fixes the interleaved
channel mapping as RTP channel = 2i and RTCP channel = 2i+1 for track i. -/
def trackToInterleavedChannel (id : Nat) (flow : TrackFlow) : Nat :=
  if flow = TrackFlow.rtp then 2 * id else 2 * id + 1

/-- Shallow embedding of `(p *program) forwardTrack` (part_000:245-275),
with the client set as a list and each channel send recorded as an
`Emission` in iteration order.  Go panics when `c.streamTracks[id]` is out
of range; the embedding reads the binding with `getD` instead, so theorems
about binding ports are meaningful for clients that do carry a binding for
`id` (the spec guarantees playing clients have non-empty bindings). -/
def forwardTrack (clients : List ServerClient) (path : String) (id : Nat)
    (flow : TrackFlow) (frame : List Nat) : List Emission :=
  match clients with
  | [] => []
  | c :: rest =>
    if c.path = path ∧ c.state = ClientState.play then
      (if c.streamProtocol = StreamProtocol.udp then
        if flow = TrackFlow.rtp then
          Emission.rtpl ⟨⟨c.ip, (c.streamTracks.getD id ⟨0, 0⟩).rtpPort⟩, frame⟩
        else
          Emission.rtcpl ⟨⟨c.ip, (c.streamTracks.getD id ⟨0, 0⟩).rtcpPort⟩, frame⟩
      else
        Emission.tcp c.id ⟨trackToInterleavedChannel id flow, frame⟩)
        :: forwardTrack rest path id flow frame
    else
      forwardTrack rest path id flow frame

/-- A Go channel holding values of type `α`, with its capacity and current
buffer contents made explicit. -/
structure Chan (α : Type) where
  cap : Nat
  buf : List α

/-- Semantics of a plain Go channel send (`ch <- x`, no `select`): when the
buffer is below capacity the value is appended and the sender continues
(`some`); when the buffer is full the sending goroutine blocks (`none`). -/
def Chan.send {α : Type} (c : Chan α) (x : α) : Option (Chan α) :=
  if c.buf.length < c.cap then some { c with buf := c.buf ++ [x] } else none

/-- The writer queues touched by `forwardTrack`: the RTP and RTCP UDP
endpoint writer queues (`p.rtpl.chanWrite`, `p.rtcpl.chanWrite`) and each
TCP client's own writer queue (`c.chanWrite`), indexed by client id. -/
structure FanState where
  rtplQ : Chan UdpWrite
  rtcplQ : Chan UdpWrite
  tcpQ : Nat → Chan InterleavedFrame

/-- Shallow embedding of `forwardTrack` (part_000:245-275) with the channel
sends made explicit: each send uses `Chan.send`; a send on a full queue
blocks the forwarding goroutine, so the whole step returns `none` (and the
read lock taken by the caller at stream-udpl.go:79-82 stays held).  There is
no `select`/default branch in the source, hence no drop path. -/
def forwardTrackQ (st : FanState) (clients : List ServerClient) (path : String)
    (id : Nat) (flow : TrackFlow) (frame : List Nat) : Option FanState :=
  match clients with
  | [] => some st
  | c :: rest =>
    if c.path = path ∧ c.state = ClientState.play then
      if c.streamProtocol = StreamProtocol.udp then
        if flow = TrackFlow.rtp then
          match st.rtplQ.send ⟨⟨c.ip, (c.streamTracks.getD id ⟨0, 0⟩).rtpPort⟩, frame⟩ with
          | none => none
          | some q => forwardTrackQ { st with rtplQ := q } rest path id flow frame
        else
          match st.rtcplQ.send ⟨⟨c.ip, (c.streamTracks.getD id ⟨0, 0⟩).rtcpPort⟩, frame⟩ with
          | none => none
          | some q => forwardTrackQ { st with rtcplQ := q } rest path id flow frame
      else
        match (st.tcpQ c.id).send ⟨trackToInterleavedChannel id flow, frame⟩ with
        | none => none
        | some q =>
          forwardTrackQ
            { st with tcpQ := fun j => if j = c.id then q else st.tcpQ j }
            rest path id flow frame
    else
      forwardTrackQ st rest path id flow frame

/-- Concrete subscriber used to exercise the forward step: a playing UDP
client on path "p" with a binding for track 0. -/
def fullQueueClient : ServerClient :=
  { id := 0, path := "p", state := ClientState.play
    streamProtocol := StreamProtocol.udp, ip := 7
    streamTracks := [⟨40000, 40001⟩] }

/-- Fan-out state whose RTP endpoint writer queue is at capacity. -/
def fullRtplState : FanState :=
  { rtplQ := ⟨1, [⟨⟨9, 9⟩, [1]⟩]⟩
    rtcplQ := ⟨1, []⟩
    tcpQ := fun _ => ⟨1, []⟩ }

/-- Fan-out state whose writer queues all have room. -/
def roomyState : FanState :=
  { rtplQ := ⟨1, []⟩
    rtcplQ := ⟨1, []⟩
    tcpQ := fun _ => ⟨1, []⟩ }

/-- Association-list update modelling `m[k] = v` on a Go map with string
keys: the key's previous entry (if any) is replaced. -/
def setKey (ls : List (String × Nat)) (k : String) (v : Nat) : List (String × Nat) :=
  (k, v) :: ls.filter (fun e => !(e.1 == k))

/-- Association-list lookup modelling `m[k]` on a Go map. -/
def lookupKey (ls : List (String × Nat)) (k : String) : Option Nat :=
  (ls.find? (fun e => e.1 == k)).map (fun e => e.2)

/-- State shared between the lifecycle supervisor goroutine
(part_000:201-231) and the rest of the program.  `clients` holds the
connected clients as (identity, `c.path`) pairs, `streams` the keys of
`p.streams` (each with its creation time, recorded as ghost data only so
that the spec's TTL invariant can be stated — the code never reads it),
`lastSeen` the supervisor-local `streamsClientLastTime` map, `stopped` the
log of `close(s.stop)` signals as (path, time) pairs, and `lastTick` the
time of the most recent tick.  Time is a `Nat` in fixed units with the
ticker cadence (part_000:202) equal to one unit. -/
structure SupState where
  now : Nat
  clients : List (Nat × String)
  streams : List (String × Nat)
  lastSeen : List (String × Nat)
  stopped : List (String × Nat)
  lastTick : Option Nat

/-- First half of a supervisor tick (part_000:211-213): for each connected
client, stamp `streamsClientLastTime[c.path] = now`. -/
def stampClients (clients : List (Nat × String)) (now : Nat)
    (ls : List (String × Nat)) : List (String × Nat) :=
  clients.foldl (fun acc c => setKey acc c.2 now) ls

/-- Whether a path has an expired `streamsClientLastTime` entry
(part_000:216), deciding deletion of the stream under the tick. -/
def expiredEntryFor (now ttl : Nat) (ls : List (String × Nat)) (p : String) : Bool :=
  ls.any (fun e => e.1 == p && decide (ttl ≤ now - e.2))

/-- One supervisor tick (part_000:208-228), executed atomically under
`p.mutex.Lock()`: stamp every connected client's path with the current
time, then for every `(path, lastTime)` entry with `now - lastTime >= TTL`
whose path is present in `p.streams`, signal `close(s.stop)`, delete the
stream from `p.streams`, and delete the `streamsClientLastTime` entry;
entries whose path is absent from `p.streams` are skipped (`continue`)
and kept.  The association lists model Go maps, so keys are unique. -/
def supervisorTick (ttl : Nat) (s : SupState) : SupState :=
  let stamped := stampClients s.clients s.now s.lastSeen
  { s with
    lastSeen := stamped.filter
      (fun e => !(decide (ttl ≤ s.now - e.2) && s.streams.any (fun sc => sc.1 == e.1)))
    streams := s.streams.filter
      (fun sc => !(expiredEntryFor s.now ttl stamped sc.1))
    stopped := s.stopped ++
      (stamped.filter
        (fun e => decide (ttl ≤ s.now - e.2) && s.streams.any (fun sc => sc.1 == e.1))).map
        (fun e => (e.1, s.now))
    lastTick := some s.now }

/-- Supervisor-level step relation.  `tick` is the supervisor body from the
source; the remaining actions model the environment (code outside src/):
time advancing between ticks, clients connecting and disconnecting, and a
stream being created — which the server-side session code only does while
the requesting client is connected (spec: streams are created lazily on
first client subscribing to the path). -/
inductive SupStep (ttl : Nat) : SupState → SupState → Prop where
  | advance (s : SupState) (d : Nat) :
      SupStep ttl s { s with now := s.now + d }
  | connect (s : SupState) (id : Nat) (path : String) :
      SupStep ttl s { s with clients := (id, path) :: s.clients }
  | disconnect (s : SupState) (c : Nat × String) (h : c ∈ s.clients) :
      SupStep ttl s { s with clients := s.clients.erase c }
  | addStream (s : SupState) (path : String)
      (hc : ∃ id, (id, path) ∈ s.clients) :
      SupStep ttl s { s with streams := (path, s.now) :: s.streams }
  | tick (s : SupState) :
      SupStep ttl s (supervisorTick ttl s)

/-- The initial supervisor state: no clients, no streams, empty
`streamsClientLastTime`. -/
def supInit : SupState :=
  { now := 0, clients := [], streams := [], lastSeen := [], stopped := [], lastTick := none }

/-- The TTL invariant claimed by the spec, stated in the spec's words: for
every stream in the map, `now - max(lastSeen[path], creationTime) <
streamTTL`, or a stop has been signaled for it within the last tick (one
time unit).  When the path has no `lastSeen` entry, the maximum degenerates
to the creation time. -/
def specStreamTTLInv (ttl : Nat) (s : SupState) : Prop :=
  ∀ e ∈ s.streams,
    (s.now - (match lookupKey s.lastSeen e.1 with
              | some t => max t e.2
              | none => e.2) < ttl)
    ∨ ∃ ts, (e.1, ts) ∈ s.stopped ∧ s.now ≤ ts + 1

/-- The reachable state refuting the spec's TTL invariant: a client
connects, its stream is created, the client disconnects again before the
first tick ever sees it, so no `streamsClientLastTime` entry is ever
stamped for the path and the sweep (which is driven by that map alone)
never removes the stream. -/
def orphanStreamState : SupState :=
  { now := 2, clients := [], streams := [("p", 0)], lastSeen := [], stopped := []
    lastTick := some 2 }

/-- A UDP datagram as delivered to `ReadFromUDP` (stream-udpl.go:69):
source address, source port, and payload bytes. -/
structure Datagram where
  srcIp : Nat
  srcPort : Int
  payload : List Nat
deriving DecidableEq, Repr

/-- The fields of `streamUdpListener` read by its `run` loop
(stream-udpl.go:61-91). -/
structure StreamUdpListenerCfg where
  publisherIp : Nat
  publisherPort : Int
  trackId : Nat
  flow : TrackFlow
  path : String
deriving DecidableEq, Repr

/-- One call of `l.p.forwardTrack` made by the listener's read loop
(stream-udpl.go:82).  `bufId` is the index of the read that allocated the
buffer being handed over: the loop allocates a fresh 2048-byte buffer per
read (stream-udpl.go:68), so distinct forwards carry distinct buffers. -/
structure ForwardEv where
  bufId : Nat
  path : String
  trackId : Nat
  flow : TrackFlow
  bytes : List Nat
deriving DecidableEq, Repr

/-- Shallow embedding of the body of `streamUdpListener.run`
(stream-udpl.go:61-91) over a finite sequence of incoming datagrams (the
loop exits when the read errors, i.e. at the end of the list).  `k` counts
the reads already performed and names the fresh buffer of the next read.
`ReadFromUDP` on a 2048-byte buffer returns `n = min(datagram size, 2048)`
bytes, so `buf[:n]` is the payload truncated to 2048 bytes.  A datagram
whose source IP or source port differs from the listener's publisher IP
and port is skipped (stream-udpl.go:74-76); otherwise exactly those `n`
bytes are forwarded tagged with the listener's path, track id and flow. -/
def runReads (cfg : StreamUdpListenerCfg) (k : Nat) : List Datagram → List ForwardEv
  | [] => []
  | d :: rest =>
    if d.srcIp ≠ cfg.publisherIp ∨ d.srcPort ≠ cfg.publisherPort then
      runReads cfg (k + 1) rest
    else
      ⟨k, cfg.path, cfg.trackId, cfg.flow, d.payload.take 2048⟩ :: runReads cfg (k + 1) rest

/-- The listener's read loop started on a fresh listener (no reads yet). -/
def streamUdpListenerRun (cfg : StreamUdpListenerCfg) (ds : List Datagram) :
    List ForwardEv :=
  runReads cfg 0 ds

/-- Program counter of the `run` goroutine of a `streamUdpListener`:
`notSpawned` (start() never called, so no goroutine exists), `loop` (inside
the read loop, stream-udpl.go:64-90), `sendDone` (loop exited, blocked in
the deferred `l.chanDone <- struct{}{}`, stream-udpl.go:62), `exited`
(the deferred send completed). -/
inductive RunPC where
  | notSpawned
  | loop
  | sendDone
  | exited
deriving DecidableEq, Repr

/-- Program counter of a goroutine executing `streamUdpListener.close`
(stream-udpl.go:48-54): `idle` (not yet called), `sockClosed` (after
`l.nconn.Close()`), `returned`. -/
inductive ClosePC where
  | idle
  | sockClosed
  | returned
deriving DecidableEq, Repr

/-- Joint state of a `streamUdpListener`'s run goroutine and a close call.
`started` records whether `start()` was called (it sets
`l.state = _UDPL_STATE_RUNNING` before spawning `run`, stream-udpl.go:56-59);
`forwards` counts the frames handed to the fan-out so far. -/
structure UdplState where
  started : Bool
  socketClosed : Bool
  runPC : RunPC
  closePC : ClosePC
  forwards : Nat
deriving DecidableEq, Repr

/-- Interleaving semantics of `run` (stream-udpl.go:61-91) and `close`
(stream-udpl.go:48-54) for one listener.  `chanDone` is unbuffered, so the
deferred send in `run` and the receive in `close` complete together
(`rendezvous`).  `readOk` is a successful `ReadFromUDP` followed by the
forward under the read lock; `readErr` is a failed read, which exits the
loop and runs the deferred send; reads can fail at any time once the
socket is closed, and spontaneous socket errors are also admitted.
`close` first closes the socket, then receives from `chanDone` only when
`l.state == _UDPL_STATE_RUNNING` (`started`); in the starting state it
returns immediately (`skipWait`). -/
inductive UdplStep : UdplState → UdplState → Prop where
  | readOk (s : UdplState) (h : s.runPC = RunPC.loop) :
      UdplStep s { s with forwards := s.forwards + 1 }
  | readErr (s : UdplState) (h : s.runPC = RunPC.loop) :
      UdplStep s { s with runPC := RunPC.sendDone }
  | closeSock (s : UdplState) (h : s.closePC = ClosePC.idle) :
      UdplStep s { s with closePC := ClosePC.sockClosed, socketClosed := true }
  | rendezvous (s : UdplState) (hr : s.runPC = RunPC.sendDone)
      (hc : s.closePC = ClosePC.sockClosed) (hs : s.started = true) :
      UdplStep s { s with runPC := RunPC.exited, closePC := ClosePC.returned }
  | skipWait (s : UdplState) (hc : s.closePC = ClosePC.sockClosed)
      (hs : s.started = false) :
      UdplStep s { s with closePC := ClosePC.returned }

/-- Initial state of a listener on which `start()` has been called: the run
goroutine is in its read loop. -/
def udplStarted : UdplState :=
  { started := true, socketClosed := false, runPC := RunPC.loop
    closePC := ClosePC.idle, forwards := 0 }

/-- Initial state of a listener still in `_UDPL_STATE_STARTING`:
`start()` was never called, so no run goroutine exists. -/
def udplNeverStarted : UdplState :=
  { started := false, socketClosed := false, runPC := RunPC.notSpawned
    closePC := ClosePC.idle, forwards := 0 }

/-- Environment variable lookups as kingpin performs them, typed per flag:
`str` for `String` flags and `int` for `Int` flags (kingpin parses the
variable's text according to the flag's type). -/
structure Env where
  str : String → Option String
  int : String → Option Int

/-- Command-line values: `some` when the flag was given on the command
line, `none` otherwise. -/
structure CliArgs where
  protocols : Option String
  rtspPort : Option Int
  rtpPort : Option Int
  rtcpPort : Option Int

/-- kingpin resolution of a single flag: the command-line value when given,
otherwise the flag's `Envar` environment variable when set, otherwise the
declared default. -/
def resolveFlag {α : Type} (cli : Option α) (env : String → Option α)
    (envName : String) (dflt : α) : α :=
  match cli with
  | some v => v
  | none =>
    match env envName with
    | some v => v
    | none => dflt

/-- The four flag values produced by the kingpin declarations in
`newProgram` (part_000:106-119). -/
structure FlagConf where
  protocolsStr : String
  rtspPort : Int
  rtpPort : Int
  rtcpPort : Int
deriving DecidableEq, Repr

/-- Shallow embedding of the kingpin flag declarations of `newProgram`
(part_000:106-119), defaults and `Envar` names copied from the source.
Note that part_000:113 registers `RTP_PORT` — not `RTCP_PORT` — as the
environment variable of the `--rtcp-port` flag. -/
def resolveProgramFlags (cli : CliArgs) (env : Env) : FlagConf :=
  { protocolsStr := resolveFlag cli.protocols env.str ("PROTOCOLS") ("tcp,udp")
    rtspPort := resolveFlag cli.rtspPort env.int ("RTSP_PORT") 8554
    rtpPort := resolveFlag cli.rtpPort env.int ("RTP_PORT") 8050
    rtcpPort := resolveFlag cli.rtcpPort env.int ("RTP_PORT") 8051 }

/-- Environment with only `RTCP_PORT` set (to 9001). -/
def envRtcpOnly : Env :=
  { str := fun _ => none
    int := fun n => if n = "RTCP_PORT" then some 9001 else none }

/-- Environment with only `RTP_PORT` set (to 9000). -/
def envRtpOnly : Env :=
  { str := fun _ => none
    int := fun n => if n = "RTP_PORT" then some 9000 else none }

/-- An empty command line: every flag left to env/default resolution. -/
def noCli : CliArgs :=
  { protocols := none, rtspPort := none, rtpPort := none, rtcpPort := none }

/-- Per-stream configuration entry, from `type streamConf struct`
(part_000:50-53), with yaml tags `url` and `useTcp`. -/
structure streamConf where
  Url : String
  UseTcp : Bool
deriving DecidableEq, Repr

/-- The configuration record, from `type conf struct` (part_000:55-62).
It has exactly these six fields: `Protocols`, `RtspPort`, `RtpPort`,
`RtcpPort`, `StreamReadyTimeout`, `StreamTTL` — and in particular no
field for a per-path stream mapping.  `time.Duration` values are `Int`
nanoseconds. -/
structure conf where
  Protocols : List String
  RtspPort : Int
  RtpPort : Int
  RtcpPort : Int
  StreamReadyTimeout : Int
  StreamTTL : Int
deriving DecidableEq, Repr

/-- One second, as a `time.Duration` in nanoseconds. -/
def second : Int := 1000000000

/-- A parsed YAML configuration document, with the scalar fields the
`conf` struct can receive (each `none` when the key is absent) and the
document's `streams` section content. -/
structure ConfDoc where
  protocols : Option (List String)
  rtspPort : Option Int
  rtpPort : Option Int
  rtcpPort : Option Int
  streamReadyTimeout : Option Int
  streamTTL : Option Int
  streams : List (String × streamConf)
deriving DecidableEq, Repr

/-- yaml.v2 decoding of a parsed document into `conf` (part_000:66-67 and
part_000:81-82): recognized fields present in the document are copied,
absent fields keep the Go zero values, and document keys with no matching
struct field — in particular the whole `streams` section — are silently
dropped (yaml.v2 default non-strict decoding). -/
def decodeConf (d : ConfDoc) : conf :=
  { Protocols := d.protocols.getD []
    RtspPort := d.rtspPort.getD 0
    RtpPort := d.rtpPort.getD 0
    RtcpPort := d.rtcpPort.getD 0
    StreamReadyTimeout := d.streamReadyTimeout.getD 0
    StreamTTL := d.streamTTL.getD 0 }

/-- The two error sources of `loadConf`: `os.Open` failing
(part_000:75-78) and the YAML decode failing (part_000:67-70 and
part_000:82-85). -/
inductive LoadError where
  | openError
  | decodeError
deriving DecidableEq, Repr

/-- Shallow embedding of `loadConf` (part_000:64-89).  The file system
maps a path to `none` when the file cannot be opened, and otherwise to the
file's content; content (also for standard input) is `some doc` when the
bytes parse as a YAML document and `none` when the decoder fails.  When
`confPath` is the literal "stdin" the document is decoded from standard
input without touching the file system. -/
def loadConf (confPath : String) (fs : String → Option (Option ConfDoc))
    (stdin : Option ConfDoc) : Except LoadError conf :=
  if confPath = "stdin" then
    match stdin with
    | none => Except.error LoadError.decodeError
    | some d => Except.ok (decodeConf d)
  else
    match fs confPath with
    | none => Except.error LoadError.openError
    | some none => Except.error LoadError.decodeError
    | some (some d) => Except.ok (decodeConf d)

/-- A document carrying a `streams` entry for path "cam1". -/
def cam1Doc : ConfDoc :=
  { protocols := some ["udp"], rtspPort := some 8554, rtpPort := some 8050
    rtcpPort := some 8051, streamReadyTimeout := some second
    streamTTL := some second
    streams := [("cam1", { Url := "rtsp://origin/cam1", UseTcp := false })] }

/-- A document whose `streams` entry violates every boundary rule: odd
rtpPort, rtcpPort different from rtpPort + 1, absent protocols and
timeouts. -/
def badBoundsDoc : ConfDoc :=
  { protocols := none, rtspPort := none, rtpPort := some 7, rtcpPort := some 9
    streamReadyTimeout := none, streamTTL := none, streams := [] }

/-- The protocol-set construction loop of `newProgram` (part_000:158-170):
tokens are consumed left to right, "udp" and "tcp" set the corresponding
member, and any other token aborts with an error (`none`).  The set is
represented as (has udp, has tcp). -/
def protocolsSet (ps : List String) (acc : Bool × Bool) : Option (Bool × Bool) :=
  match ps with
  | [] => some acc
  | proto :: rest =>
    if proto = "udp" then protocolsSet rest (true, acc.2)
    else if proto = "tcp" then protocolsSet rest (acc.1, true)
    else none

/-- The configuration validation of `newProgram` (part_000:130-173), in
source order, with the returned error messages: `none` means validation
passed.  Go's `%` on `int` is truncated division remainder, `Int.tmod`. -/
def checkConf (c : conf) : Option String :=
  if c.RtspPort = 0 then some ("rtsp port not provided")
  else if c.RtpPort = 0 then some ("rtp port not provided")
  else if c.RtcpPort = 0 then some ("rtcp port not provided")
  else if c.RtpPort.tmod 2 ≠ 0 then some ("rtp port must be even")
  else if c.RtcpPort ≠ c.RtpPort + 1 then some ("rtcp port must be rtp port plus 1")
  else if c.StreamReadyTimeout < second then some ("too small stream ready timeout")
  else if c.StreamTTL < second then some ("too small stream TTL")
  else
    match protocolsSet c.Protocols (false, false) with
    | none => some ("unsupported protocol")
    | some st =>
      if st.1 = false ∧ st.2 = false then some ("no protocols provided") else none

end RtspProxy

namespace RtspProxy

/-- C1: for every packet handed to `forwardTrack`, exactly the clients whose
path equals the packet's path and whose state is playing receive it, each on
its own transport: a UDP client yields a datagram to `(client.ip, binding
rtpPort)` on the RTP endpoint's writer queue for an RTP flow, or to
`(client.ip, binding rtcpPort)` on the RTCP endpoint's writer queue for an
RTCP flow; a TCP client yields an interleaved frame with the same bytes on
channel `2*trackId` for RTP and `2*trackId+1` for RTCP on that client's
writer queue.  Clients on another path or not playing yield nothing. -/
theorem forwardTrack_routes_exactly_playing_clients
    (clients : List ServerClient) (path : String) (id : Nat)
    (flow : TrackFlow) (frame : List Nat) :
    forwardTrack clients path id flow frame =
      (clients.filter (fun c =>
          decide (c.path = path ∧ c.state = ClientState.play))).map
        (fun c =>
          if c.streamProtocol = StreamProtocol.udp then
            if flow = TrackFlow.rtp then
              Emission.rtpl ⟨⟨c.ip, (c.streamTracks.getD id ⟨0, 0⟩).rtpPort⟩, frame⟩
            else
              Emission.rtcpl ⟨⟨c.ip, (c.streamTracks.getD id ⟨0, 0⟩).rtcpPort⟩, frame⟩
          else
            Emission.tcp c.id ⟨2 * id + (if flow = TrackFlow.rtcp then 1 else 0), frame⟩) := by
  induction clients with
  | nil => rfl
  | cons c rest ih =>
    by_cases h : c.path = path ∧ c.state = ClientState.play
    · have hd : decide (c.path = path ∧ c.state = ClientState.play) = true := by
        simpa using h
      rw [forwardTrack, if_pos h]
      simp only [List.filter_cons, hd, if_true, List.map_cons]
      rw [ih]
      congr 1
      by_cases hu : c.streamProtocol = StreamProtocol.udp
      · simp [hu]
      · simp only [hu, if_false]
        cases flow <;> simp [trackToInterleavedChannel]
    · have hd : decide (c.path = path ∧ c.state = ClientState.play) = false := by
        simpa using h
      rw [forwardTrack, if_neg h]
      simp only [List.filter_cons, hd, if_false]
      exact ih

/-- C2 evidence: the forward step does not drop a packet when a
subscriber's writer queue is full — it blocks.  With a single playing UDP
subscriber on path "p" and the RTP endpoint's writer queue at capacity,
the forward step ends in the blocked outcome `none` (the goroutine is
stuck in `p.rtpl.chanWrite <- ...`, part_000:250, with `p.mutex.RLock()`
held by the caller, stream-udpl.go:79-82) instead of completing with the
packet dropped; the same step with room in the queue completes. -/
theorem forwardTrack_blocks_on_full_queue :
    forwardTrackQ fullRtplState [fullQueueClient] ("p") 0 TrackFlow.rtp [170, 187] = none
    ∧ (forwardTrackQ roomyState [fullQueueClient] ("p") 0 TrackFlow.rtp [170, 187]).isSome
        = true := by
  constructor
  · rfl
  · rfl

/-- Helper: membership in a filtered list gives membership plus the
predicate. -/
theorem mem_of_mem_tick_streams {ttl : Nat} {s : SupState} {e : String × Nat}
    (he : e ∈ (supervisorTick ttl s).streams) :
    e ∈ s.streams ∧ expiredEntryFor s.now ttl
      (stampClients s.clients s.now s.lastSeen) e.1 = false := by
  have h := List.mem_filter.mp he
  exact ⟨h.1, by simpa using h.2⟩

/-- Helper: a path having an expired stamped entry is removed from the
stream map by the tick, whatever its creation time. -/
theorem tick_removes_stream_of_expired {ttl : Nat} {s : SupState} {p : String}
    {t : Nat} (hmem : (p, t) ∈ stampClients s.clients s.now s.lastSeen)
    (hexp : ttl ≤ s.now - t) :
    ∀ cT, (p, cT) ∉ (supervisorTick ttl s).streams := by
  intro cT hcon
  have h := mem_of_mem_tick_streams hcon
  have hexp' : expiredEntryFor s.now ttl
      (stampClients s.clients s.now s.lastSeen) p = true := by
    refine List.any_eq_true.mpr ⟨(p, t), hmem, ?_⟩
    simp [hexp]
  rw [h.2] at hexp'
  exact Bool.false_ne_true hexp'

/-- Helper: after the tick, every surviving stream's surviving lastSeen
entry is younger than the TTL. -/
theorem tick_lastSeen_bound {ttl : Nat} {s : SupState} {e : String × Nat}
    (he : e ∈ (supervisorTick ttl s).streams) :
    ∀ t, (e.1, t) ∈ (supervisorTick ttl s).lastSeen → s.now - t < ttl := by
  intro t ht
  have he' := mem_of_mem_tick_streams he
  have ht' := List.mem_filter.mp ht
  have hany : s.streams.any (fun sc => sc.1 == e.1) = true :=
    List.any_eq_true.mpr ⟨e, he'.1, by simp⟩
  have h2 := ht'.2
  simp only [hany, Bool.and_true, Bool.not_eq_true', decide_eq_false_iff_not,
    not_le] at h2
  exact h2

/-- C3 counterexample: the spec's TTL invariant fails on a reachable
state.  With `streamTTL = 2`, a client connects, its stream is created,
and the client disconnects again — all between two supervisor ticks — so
no `streamsClientLastTime` entry is ever stamped for the path.  The sweep
is driven by that map alone, so after two further ticks the stream is
still in the map at `now = 2` with `now - max(lastSeen, creationTime) =
2 ≥ streamTTL` and no stop ever signaled. -/
theorem supervisor_ttl_invariant_fails_cex :
    Relation.ReflTransGen (SupStep 2) supInit orphanStreamState
    ∧ ¬ specStreamTTLInv 2 orphanStreamState := by
  constructor
  · have h1 : SupStep 2 supInit
        ⟨0, [(0, "p")], [], [], [], none⟩ :=
      SupStep.connect supInit 0 ("p")
    have h2 : SupStep 2 ⟨0, [(0, "p")], [], [], [], none⟩
        ⟨0, [(0, "p")], [("p", 0)], [], [], none⟩ :=
      SupStep.addStream _ ("p") ⟨0, by simp⟩
    have h3 : SupStep 2 ⟨0, [(0, "p")], [("p", 0)], [], [], none⟩
        ⟨0, [], [("p", 0)], [], [], none⟩ :=
      SupStep.disconnect _ (0, "p") (by simp)
    have h4 : SupStep 2 ⟨0, [], [("p", 0)], [], [], none⟩
        ⟨1, [], [("p", 0)], [], [], none⟩ :=
      SupStep.advance _ 1
    have h5 : SupStep 2 ⟨1, [], [("p", 0)], [], [], none⟩
        ⟨1, [], [("p", 0)], [], [], some 1⟩ :=
      SupStep.tick _
    have h6 : SupStep 2 ⟨1, [], [("p", 0)], [], [], some 1⟩
        ⟨2, [], [("p", 0)], [], [], some 1⟩ :=
      SupStep.advance _ 1
    have h7 : SupStep 2 ⟨2, [], [("p", 0)], [], [], some 1⟩
        orphanStreamState :=
      SupStep.tick _
    exact Relation.ReflTransGen.tail
      (Relation.ReflTransGen.tail
        (Relation.ReflTransGen.tail
          (Relation.ReflTransGen.tail
            (Relation.ReflTransGen.tail
              (Relation.ReflTransGen.tail
                (Relation.ReflTransGen.single h1) h2) h3) h4) h5) h6) h7
  · intro hinv
    have h := hinv ("p", 0) (by simp [orphanStreamState])
    rcases h with h | ⟨ts, hts, _⟩
    · simp [orphanStreamState, lookupKey] at h
    · simp [orphanStreamState] at hts

/-- C3 amended: the code's TTL guarantee holds only for streams whose path
carries a `streamsClientLastTime` entry.  After any supervisor tick, every
stream still in the map whose path has a lastSeen entry satisfies
`now - lastSeen < streamTTL`, and a tracked path whose stamped lastSeen
entry is at least `streamTTL` old does not survive the tick.  (As the
counterexample shows, a stream whose path never received a lastSeen entry
can remain in the map arbitrarily long past its creation.) -/
theorem supervisorTick_ttl_bound (ttl : Nat) (s : SupState) :
    (∀ e ∈ (supervisorTick ttl s).streams, ∀ t,
        (e.1, t) ∈ (supervisorTick ttl s).lastSeen → s.now - t < ttl)
    ∧ (∀ p t, (p, t) ∈ stampClients s.clients s.now s.lastSeen →
        ttl ≤ s.now - t → ∀ cT, (p, cT) ∉ (supervisorTick ttl s).streams) := by
  constructor
  · intro e he t ht
    exact tick_lastSeen_bound he t ht
  · intro p t hmem hexp cT
    exact tick_removes_stream_of_expired hmem hexp cT

/-- Witness for the amended C3 theorem at a concrete state: path "p" was
last seen at time 0, the tick runs at time 10 with TTL 2, and the stream
at "p" (created at time 0) is removed. -/
theorem supervisorTick_ttl_bound_witness :
    ("p", 0) ∉ (supervisorTick 2
      ⟨10, [], [("p", 0)], [("p", 0)], [], none⟩).streams :=
  (supervisorTick_ttl_bound 2 ⟨10, [], [("p", 0)], [("p", 0)], [], none⟩).2
    ("p") 0 (by simp [stampClients]) (by decide) 0

/-- Helper: `find?` ignores elements removed by a filter that keeps every
element satisfying the searched predicate. -/
theorem find?_filter_of_imp {α : Type} (p q : α → Bool) (l : List α)
    (h : ∀ a, p a = true → q a = true) :
    (l.filter q).find? p = l.find? p := by
  induction l with
  | nil => rfl
  | cons a l ih =>
    by_cases hq : q a = true
    · rw [List.filter_cons_of_pos hq]
      by_cases hp : p a = true
      · rw [List.find?_cons_of_pos _ hp, List.find?_cons_of_pos _ hp]
      · have hp' : p a = false := by simpa using hp
        rw [List.find?_cons_of_neg _ (by simp [hp']),
          List.find?_cons_of_neg _ (by simp [hp'])]
        exact ih
    · have hq' : q a = false := by simpa using hq
      rw [List.filter_cons_of_neg (by simp [hq'])]
      have hp' : p a = false := by
        by_contra hc
        have := h a (by simpa using hc)
        simp [hq'] at this
      rw [List.find?_cons_of_neg _ (by simp [hp'])]
      exact ih

/-- Helper: lookup after a map update. -/
theorem lookupKey_setKey (ls : List (String × Nat)) (k k' : String) (v : Nat) :
    lookupKey (setKey ls k v) k' = if k' = k then some v else lookupKey ls k' := by
  by_cases h : k' = k
  · subst h
    simp [lookupKey, setKey, List.find?_cons_of_pos]
  · have hb : (k == k') = false := by
      simp [Ne.symm h]
    unfold lookupKey setKey
    rw [List.find?_cons_of_neg _ (by simp [hb])]
    rw [find?_filter_of_imp]
    · simp [h]
    · intro a ha
      have : a.1 = k' := by simpa using ha
      simp [this, h]

/-- Helper: stamping makes every connected client's path map to `now`. -/
theorem lookupKey_stampClients (now : Nat) (clients : List (Nat × String)) :
    ∀ (ls : List (String × Nat)) (p : String),
      (p ∈ clients.map Prod.snd ∨ lookupKey ls p = some now) →
      lookupKey (stampClients clients now ls) p = some now := by
  induction clients with
  | nil =>
    intro ls p h
    rcases h with h | h
    · simp at h
    · exact h
  | cons c cs ih =>
    intro ls p h
    have hstep : stampClients (c :: cs) now ls
        = stampClients cs now (setKey ls c.2 now) := rfl
    rw [hstep]
    apply ih
    by_cases hc : p = c.2
    · right
      rw [lookupKey_setKey, if_pos hc]
    · rcases h with h | h
      · left
        simp only [List.map_cons, List.mem_cons] at h
        rcases h with h | h
        · exact absurd h hc
        · exact h
      · right
        rw [lookupKey_setKey, if_neg hc]
        exact h

/-- Helper: the keys of `setKey ls k v` stay duplicate-free. -/
theorem setKey_keys_nodup (ls : List (String × Nat)) (k : String) (v : Nat)
    (h : (ls.map Prod.fst).Nodup) :
    (((setKey ls k v)).map Prod.fst).Nodup := by
  unfold setKey
  rw [List.map_cons]
  refine List.Nodup.cons ?_ ?_
  · intro hk
    obtain ⟨e, he, heq⟩ := List.mem_map.mp hk
    have := (List.mem_filter.mp he).2
    simp [heq] at this
  · exact List.Nodup.sublist (List.Sublist.map _ (List.filter_sublist ls)) h

/-- Helper: stamping preserves duplicate-free keys. -/
theorem stampClients_keys_nodup (now : Nat) (clients : List (Nat × String)) :
    ∀ (ls : List (String × Nat)), (ls.map Prod.fst).Nodup →
      ((stampClients clients now ls).map Prod.fst).Nodup := by
  induction clients with
  | nil => intro ls h; exact h
  | cons c cs ih =>
    intro ls h
    exact ih (setKey ls c.2 now) (setKey_keys_nodup ls c.2 now h)

/-- Helper: in an association list with duplicate-free keys, a key
determines its value. -/
theorem keys_nodup_val_unique {ls : List (String × Nat)}
    (h : (ls.map Prod.fst).Nodup) {p : String} {t t' : Nat}
    (h1 : (p, t) ∈ ls) (h2 : (p, t') ∈ ls) : t = t' := by
  induction ls with
  | nil => simp at h1
  | cons e rest ih =>
    rw [List.map_cons, List.nodup_cons] at h
    rcases List.mem_cons.mp h1 with he1 | he1 <;>
      rcases List.mem_cons.mp h2 with he2 | he2
    · rw [← he1] at he2
      exact (Prod.mk.injEq _ _ _ _ ▸ he2).2.symm
    · exfalso
      apply h.1
      rw [← he1]
      exact List.mem_map.mpr ⟨(p, t'), he2, rfl⟩
    · exfalso
      apply h.1
      rw [← he2]
      exact List.mem_map.mpr ⟨(p, t), he1, rfl⟩
    · exact ih h.2 he1 he2

/-- C4: a supervisor tick (atomic under the write lock, part_000:209-228)
first stamps `streamsClientLastTime[c.path] = now` for every currently
connected client, and then, for every stamped `(path, lastSeen)` entry with
`now - lastSeen >= streamTTL` whose path exists in the stream map, signals
the stream's stop (recorded in `stopped`), deletes the stream map entry,
and drops the `streamsClientLastTime` entry.  The hypothesis carries the
Go-map invariant that `streamsClientLastTime` has unique keys. -/
theorem supervisorTick_stamps_then_sweeps (ttl : Nat) (s : SupState)
    (hnd : (s.lastSeen.map Prod.fst).Nodup) :
    (∀ c ∈ s.clients,
        lookupKey (stampClients s.clients s.now s.lastSeen) c.2 = some s.now)
    ∧ (∀ p t, (p, t) ∈ stampClients s.clients s.now s.lastSeen →
        ttl ≤ s.now - t → (∃ cT, (p, cT) ∈ s.streams) →
        ((p, s.now) ∈ (supervisorTick ttl s).stopped
          ∧ (∀ cT, (p, cT) ∉ (supervisorTick ttl s).streams)
          ∧ ∀ t', (p, t') ∉ (supervisorTick ttl s).lastSeen)) := by
  constructor
  · intro c hc
    apply lookupKey_stampClients
    left
    exact List.mem_map.mpr ⟨c, hc, rfl⟩
  · intro p t hmem hexp hstream
    obtain ⟨cT0, hstream0⟩ := hstream
    have hany : s.streams.any (fun sc => sc.1 == p) = true :=
      List.any_eq_true.mpr ⟨(p, cT0), hstream0, by simp⟩
    refine ⟨?_, tick_removes_stream_of_expired hmem hexp, ?_⟩
    · show (p, s.now) ∈ s.stopped ++ _
      refine List.mem_append.mpr (Or.inr ?_)
      refine List.mem_map.mpr ⟨(p, t), ?_, rfl⟩
      refine List.mem_filter.mpr ⟨hmem, ?_⟩
      simp [hexp, hany]
    · intro t' ht'
      have h := List.mem_filter.mp ht'
      have hnd' : ((stampClients s.clients s.now s.lastSeen).map Prod.fst).Nodup :=
        stampClients_keys_nodup s.now s.clients s.lastSeen hnd
      have : t' = t := keys_nodup_val_unique hnd' h.1 hmem
      subst this
      have h2 := h.2
      simp [hexp, hany] at h2

/-- Witness for C4 at a concrete state: client 0 is connected on path "q"
(stamped to the tick time 10), and path "p", last seen at time 0 with TTL
2 and a stream created at time 3, is stopped by the tick. -/
theorem supervisorTick_stamps_then_sweeps_witness :
    lookupKey (stampClients [(0, "q")] 10 [("p", 0)]) ("q") = some 10
    ∧ ("p", 10) ∈ (supervisorTick 2
        ⟨10, [(0, "q")], [("p", 3)], [("p", 0)], [], none⟩).stopped := by
  have h := supervisorTick_stamps_then_sweeps 2
    ⟨10, [(0, "q")], [("p", 3)], [("p", 0)], [], none⟩ (by simp)
  exact ⟨h.1 (0, "q") (by simp),
    (h.2 ("p") 0 (by simp [stampClients, setKey]) (by decide) ⟨3, by simp⟩).1⟩

/-- Helper: the read loop forwards exactly the datagrams whose source
matches the publisher, with payload truncated to the 2048-byte buffer. -/
theorem runReads_map_proj (cfg : StreamUdpListenerCfg) (ds : List Datagram) :
    ∀ k, (runReads cfg k ds).map (fun e => (e.path, e.trackId, e.flow, e.bytes))
      = (ds.filter (fun d =>
          decide (d.srcIp = cfg.publisherIp ∧ d.srcPort = cfg.publisherPort))).map
        (fun d => (cfg.path, cfg.trackId, cfg.flow, d.payload.take 2048)) := by
  induction ds with
  | nil => intro k; rfl
  | cons d rest ih =>
    intro k
    by_cases h : d.srcIp = cfg.publisherIp ∧ d.srcPort = cfg.publisherPort
    · have hcond : ¬ (d.srcIp ≠ cfg.publisherIp ∨ d.srcPort ≠ cfg.publisherPort) := by
        push_neg
        exact h
      rw [runReads, if_neg hcond, List.map_cons,
        List.filter_cons_of_pos (by simpa using h), List.map_cons, ih]
    · have hcond : d.srcIp ≠ cfg.publisherIp ∨ d.srcPort ≠ cfg.publisherPort := by
        rcases not_and_or.mp h with h1 | h1
        · exact Or.inl h1
        · exact Or.inr h1
      rw [runReads, if_pos hcond,
        List.filter_cons_of_neg (by simpa using h), ih]

/-- Helper: every event of a loop that has already performed `k` reads
carries a buffer index of at least `k`. -/
theorem runReads_bufId_ge (cfg : StreamUdpListenerCfg) (ds : List Datagram) :
    ∀ k, ∀ e ∈ runReads cfg k ds, k ≤ e.bufId := by
  induction ds with
  | nil => intro k e he; simp [runReads] at he
  | cons d rest ih =>
    intro k e he
    rw [runReads] at he
    by_cases hcond : d.srcIp ≠ cfg.publisherIp ∨ d.srcPort ≠ cfg.publisherPort
    · rw [if_pos hcond] at he
      exact Nat.le_of_succ_le (ih (k + 1) e he)
    · rw [if_neg hcond] at he
      rcases List.mem_cons.mp he with he | he
      · rw [he]
      · exact Nat.le_of_succ_le (ih (k + 1) e he)

/-- Helper: buffer indices are strictly increasing along the loop, hence
pairwise distinct. -/
theorem runReads_bufId_pairwise (cfg : StreamUdpListenerCfg) (ds : List Datagram) :
    ∀ k, ((runReads cfg k ds).map ForwardEv.bufId).Pairwise (· < ·) := by
  induction ds with
  | nil => intro k; simp [runReads]
  | cons d rest ih =>
    intro k
    rw [runReads]
    by_cases hcond : d.srcIp ≠ cfg.publisherIp ∨ d.srcPort ≠ cfg.publisherPort
    · rw [if_pos hcond]
      exact ih (k + 1)
    · rw [if_neg hcond]
      rw [List.map_cons, List.pairwise_cons]
      refine ⟨?_, ih (k + 1)⟩
      intro b hb
      obtain ⟨e, he, rfl⟩ := List.mem_map.mp hb
      exact Nat.lt_of_succ_le (runReads_bufId_ge cfg rest (k + 1) e he)

/-- C5: the upstream UDP listener's read loop forwards exactly the
datagrams whose source IP and source port equal the listener's publisher
IP and port — any other datagram is dropped with nothing forwarded — and
each forwarded event carries exactly the received bytes (the datagram
payload truncated to the 2048-byte read buffer) unmodified, tagged with
the listener's path, track id and flow.  Buffer indices are pairwise
distinct: each packet travels in its own freshly allocated buffer, never
one already forwarded. -/
theorem streamUdpListenerRun_filters_and_allocates
    (cfg : StreamUdpListenerCfg) (ds : List Datagram) :
    ((streamUdpListenerRun cfg ds).map
        (fun e => (e.path, e.trackId, e.flow, e.bytes))
      = (ds.filter (fun d =>
          decide (d.srcIp = cfg.publisherIp ∧ d.srcPort = cfg.publisherPort))).map
        (fun d => (cfg.path, cfg.trackId, cfg.flow, d.payload.take 2048)))
    ∧ ((streamUdpListenerRun cfg ds).map ForwardEv.bufId).Pairwise (· < ·) :=
  ⟨runReads_map_proj cfg ds 0, runReads_bufId_pairwise cfg ds 0⟩

/-- C6 evidence: the environment variable `RTCP_PORT` does not override
the `--rtcp-port` default, because part_000:113 registers `RTP_PORT` as
that flag's environment variable.  With `RTCP_PORT=9001` set and no
command-line flags, the configured RTCP port stays at the default 8051
instead of 9001; and setting `RTP_PORT=9000` does change the RTCP port
(to 9000), contradicting the claim that `RTP_PORT` does not affect it. -/
theorem rtcpPortEnvVarIgnored :
    (resolveProgramFlags noCli envRtcpOnly).rtcpPort = 8051
    ∧ (resolveProgramFlags noCli envRtcpOnly).rtcpPort ≠ 9001
    ∧ (resolveProgramFlags noCli envRtpOnly).rtcpPort = 9000 := by
  refine ⟨rfl, ?_, rfl⟩
  intro h
  simp [resolveProgramFlags, resolveFlag, noCli, envRtcpOnly] at h

/-- C7 counterexample: decoding drops the document's `streams` section,
so the loaded configuration cannot map "cam1" to its origin URL and
prefer-TCP flag — two documents that differ exactly in that stream entry
load to identical configurations. -/
theorem decodeConf_drops_streams_cex :
    decodeConf cam1Doc = decodeConf { cam1Doc with streams := [] }
    ∧ cam1Doc.streams ≠ ({ cam1Doc with streams := [] } : ConfDoc).streams := by
  refine ⟨rfl, ?_⟩
  intro h
  simp [cam1Doc] at h

/-- C7 amended: loading a configuration document yields a record holding
only the transports, the three ports and the two timeouts; the `conf`
struct (part_000:55-62) has no field for the per-path stream mapping, so
any `streams` entries present in the document are ignored and absent from
the loaded configuration. -/
theorem decodeConf_fields_streams_ignored (d : ConfDoc)
    (s' : List (String × streamConf)) :
    decodeConf { d with streams := s' } = decodeConf d
    ∧ (decodeConf d).Protocols = d.protocols.getD []
    ∧ (decodeConf d).RtspPort = d.rtspPort.getD 0
    ∧ (decodeConf d).RtpPort = d.rtpPort.getD 0
    ∧ (decodeConf d).RtcpPort = d.rtcpPort.getD 0
    ∧ (decodeConf d).StreamReadyTimeout = d.streamReadyTimeout.getD 0
    ∧ (decodeConf d).StreamTTL = d.streamTTL.getD 0 :=
  ⟨rfl, rfl, rfl, rfl, rfl, rfl, rfl⟩

/-- C9: `loadConf` fails exactly when the file cannot be opened (for a
`confPath` other than the literal "stdin") or the YAML decode fails, and
every successfully decoded document is returned as-is with no boundary
validation — witnessed by a document whose rtpPort is odd (7), whose
rtcpPort (9) is not rtpPort + 1, whose protocol list is empty and whose
timeouts are below one second, loading without error. -/
theorem loadConf_error_iff_and_no_validation (confPath : String)
    (fs : String → Option (Option ConfDoc)) (stdin : Option ConfDoc) :
    ((∃ err, loadConf confPath fs stdin = Except.error err) ↔
      ((confPath = "stdin" ∧ stdin = none)
        ∨ (confPath ≠ "stdin" ∧ fs confPath = none)
        ∨ (confPath ≠ "stdin" ∧ fs confPath = some none)))
    ∧ (∀ d, confPath = "stdin" → stdin = some d →
        loadConf confPath fs stdin = Except.ok (decodeConf d))
    ∧ (∀ d, confPath ≠ "stdin" → fs confPath = some (some d) →
        loadConf confPath fs stdin = Except.ok (decodeConf d))
    ∧ loadConf ("stdin") (fun _ => none) (some badBoundsDoc)
        = Except.ok { Protocols := [], RtspPort := 0, RtpPort := 7, RtcpPort := 9
                      StreamReadyTimeout := 0, StreamTTL := 0 } := by
  refine ⟨?_, ?_, ?_, rfl⟩
  · by_cases hp : confPath = "stdin"
    · cases hstdin : stdin with
      | none =>
        simp [loadConf, hp, hstdin]
      | some d =>
        simp [loadConf, hp, hstdin]
    · cases hfs : fs confPath with
      | none =>
        simp [loadConf, hp, hfs]
      | some raw =>
        cases raw with
        | none => simp [loadConf, hp, hfs]
        | some d => simp [loadConf, hp, hfs]
  · intro d hp hstdin
    simp [loadConf, hp, hstdin]
  · intro d hp hfs
    simp [loadConf, hp, hfs]

/-- Witness for C9 at concrete inputs: loading from standard input with a
decodable document succeeds and returns the decoded record, and with an
unopenable path the open error is reported. -/
theorem loadConf_error_iff_and_no_validation_witness :
    loadConf ("stdin") (fun _ => none) (some cam1Doc)
        = Except.ok (decodeConf cam1Doc)
    ∧ ∃ err, loadConf ("missing.yml") (fun _ => none) none = Except.error err := by
  constructor
  · exact (loadConf_error_iff_and_no_validation ("stdin") (fun _ => none)
      (some cam1Doc)).2.1 cam1Doc rfl rfl
  · exact (loadConf_error_iff_and_no_validation ("missing.yml") (fun _ => none)
      none).1.mpr (Or.inr (Or.inl ⟨by decide, rfl⟩))

/-- Helper: the protocol loop errors exactly when some token is neither
"udp" nor "tcp". -/
theorem protocolsSet_eq_none_iff (ps : List String) :
    ∀ acc, protocolsSet ps acc = none
      ↔ ∃ pr ∈ ps, pr ≠ "udp" ∧ pr ≠ "tcp" := by
  induction ps with
  | nil => intro acc; simp [protocolsSet]
  | cons proto rest ih =>
    intro acc
    by_cases hu : proto = "udp"
    · rw [protocolsSet, if_pos hu, ih]
      constructor
      · rintro ⟨pr, hpr, hne⟩
        exact ⟨pr, List.mem_cons_of_mem _ hpr, hne⟩
      · rintro ⟨pr, hpr, hne⟩
        rcases List.mem_cons.mp hpr with h | h
        · exact absurd (h.trans hu) hne.1
        · exact ⟨pr, h, hne⟩
    · by_cases ht : proto = "tcp"
      · rw [protocolsSet, if_neg hu, if_pos ht, ih]
        constructor
        · rintro ⟨pr, hpr, hne⟩
          exact ⟨pr, List.mem_cons_of_mem _ hpr, hne⟩
        · rintro ⟨pr, hpr, hne⟩
          rcases List.mem_cons.mp hpr with h | h
          · exact absurd (h.trans ht) hne.2
          · exact ⟨pr, h, hne⟩
      · rw [protocolsSet, if_neg hu, if_neg ht]
        constructor
        · intro _
          exact ⟨proto, List.mem_cons_self _ _, hu, ht⟩
        · intro _
          rfl

/-- Helper: when every token is recognized, the loop computes exactly the
memberships of "udp" and "tcp" in the token list. -/
theorem protocolsSet_of_all_recognized (ps : List String)
    (h : ∀ pr ∈ ps, pr = "udp" ∨ pr = "tcp") :
    ∀ acc, protocolsSet ps acc
      = some (acc.1 || decide ("udp" ∈ ps), acc.2 || decide ("tcp" ∈ ps)) := by
  induction ps with
  | nil => intro acc; simp [protocolsSet]
  | cons proto rest ih =>
    intro acc
    have hrest : ∀ pr ∈ rest, pr = "udp" ∨ pr = "tcp" := by
      intro pr hpr
      exact h pr (List.mem_cons_of_mem _ hpr)
    rcases h proto (List.mem_cons_self _ _) with hu | ht
    · rw [protocolsSet, if_pos hu, ih hrest]
      subst hu
      simp [List.mem_cons]
    · have hu : proto ≠ "udp" := by
        rw [ht]
        decide
      rw [protocolsSet, if_neg hu, if_pos ht, ih hrest]
      subst ht
      simp [List.mem_cons, Ne.symm hu]

/-- C8: the bootstrap validation of `newProgram` (binds aside) rejects a
configuration exactly when one of the spec's constraints is violated: a
zero rtsp, rtp or rtcp port, an odd rtp port, an rtcp port different from
rtp port + 1, a stream-ready timeout or stream TTL below one second, a
protocols token other than "udp"/"tcp", or a protocol set that ends up
empty. -/
theorem checkConf_isSome_iff (c : conf) :
    (checkConf c).isSome = true ↔
      (c.RtspPort = 0 ∨ c.RtpPort = 0 ∨ c.RtcpPort = 0
        ∨ ¬ ((2 : Int) ∣ c.RtpPort)
        ∨ c.RtcpPort ≠ c.RtpPort + 1
        ∨ c.StreamReadyTimeout < second ∨ c.StreamTTL < second
        ∨ (∃ pr ∈ c.Protocols, pr ≠ "udp" ∧ pr ≠ "tcp")
        ∨ (∀ pr ∈ c.Protocols, pr ≠ "udp" ∧ pr ≠ "tcp")) := by
  by_cases h1 : c.RtspPort = 0
  · rw [checkConf, if_pos h1]
    exact iff_of_true rfl (Or.inl h1)
  rw [checkConf, if_neg h1]
  by_cases h2 : c.RtpPort = 0
  · rw [if_pos h2]
    exact iff_of_true rfl (Or.inr (Or.inl h2))
  rw [if_neg h2]
  by_cases h3 : c.RtcpPort = 0
  · rw [if_pos h3]
    exact iff_of_true rfl (Or.inr (Or.inr (Or.inl h3)))
  rw [if_neg h3]
  by_cases h4 : c.RtpPort.tmod 2 ≠ 0
  · rw [if_pos h4]
    refine iff_of_true rfl (Or.inr (Or.inr (Or.inr (Or.inl ?_))))
    intro hdvd
    exact h4 (Int.tmod_eq_zero_of_dvd hdvd)
  rw [if_neg h4]
  have h4' : (2 : Int) ∣ c.RtpPort :=
    Int.dvd_of_tmod_eq_zero (not_ne_iff.mp h4)
  by_cases h5 : c.RtcpPort ≠ c.RtpPort + 1
  · rw [if_pos h5]
    exact iff_of_true rfl (Or.inr (Or.inr (Or.inr (Or.inr (Or.inl h5)))))
  rw [if_neg h5]
  by_cases h6 : c.StreamReadyTimeout < second
  · rw [if_pos h6]
    exact iff_of_true rfl
      (Or.inr (Or.inr (Or.inr (Or.inr (Or.inr (Or.inl h6))))))
  rw [if_neg h6]
  by_cases h7 : c.StreamTTL < second
  · rw [if_pos h7]
    exact iff_of_true rfl
      (Or.inr (Or.inr (Or.inr (Or.inr (Or.inr (Or.inr (Or.inl h7)))))))
  rw [if_neg h7]
  by_cases hbad : ∃ pr ∈ c.Protocols, pr ≠ "udp" ∧ pr ≠ "tcp"
  · rw [(protocolsSet_eq_none_iff c.Protocols (false, false)).mpr hbad]
    exact iff_of_true rfl
      (Or.inr (Or.inr (Or.inr (Or.inr (Or.inr (Or.inr (Or.inr (Or.inl hbad))))))))
  · have hrec : ∀ pr ∈ c.Protocols, pr = "udp" ∨ pr = "tcp" := by
      intro pr hpr
      by_contra hc
      push_neg at hc
      exact hbad ⟨pr, hpr, hc⟩
    rw [protocolsSet_of_all_recognized c.Protocols hrec (false, false)]
    by_cases hempty : ∀ pr ∈ c.Protocols, pr ≠ "udp" ∧ pr ≠ "tcp"
    · have hu : "udp" ∉ c.Protocols := fun hmem => (hempty _ hmem).1 rfl
      have ht : "tcp" ∉ c.Protocols := fun hmem => (hempty _ hmem).2 rfl
      simp only [hu, ht, decide_eq_true_eq, decide_eq_false_iff_not,
        Bool.false_or, decide_eq_false hu, decide_eq_false ht]
      refine iff_of_true ?_ ?_
      · simp
      · exact Or.inr (Or.inr (Or.inr (Or.inr (Or.inr (Or.inr (Or.inr
          (Or.inr hempty)))))))
    · have hmem : "udp" ∈ c.Protocols ∨ "tcp" ∈ c.Protocols := by
        push_neg at hempty
        obtain ⟨pr, hpr, hne⟩ := hempty
        rcases hrec pr hpr with h | h
        · left; rw [← h]; exact hpr
        · right; rw [← h]; exact hpr
      refine iff_of_false ?_ ?_
      · rcases hmem with h | h <;> simp [h]
      · intro hcon
        rcases hcon with h | h | h | h | h | h | h | h | h
        · exact h1 h
        · exact h2 h
        · exact h3 h
        · exact h h4'
        · exact h5 h
        · exact h6 h
        · exact h7 h
        · exact hbad h
        · exact hempty h

/-- Helper: a step never changes the `started` flag. -/
theorem udplStep_started_eq {s s' : UdplState} (h : UdplStep s s') :
    s'.started = s.started := by
  cases h <;> rfl

/-- Helper: on a started listener, the close call has returned only once
the run goroutine has exited (the `chanDone` rendezvous is the only way
to reach `returned` while `started`). -/
theorem udpl_started_inv (s : UdplState)
    (h : Relation.ReflTransGen UdplStep udplStarted s) :
    s.started = true ∧ (s.closePC = ClosePC.returned → s.runPC = RunPC.exited) := by
  induction h with
  | refl => exact ⟨rfl, fun hc => by simp [udplStarted] at hc⟩
  | tail hr hstep ih =>
    refine ⟨(udplStep_started_eq hstep).trans ih.1, ?_⟩
    cases hstep with
    | readOk h =>
      intro hc
      simp only at hc
      exact ih.2 hc
    | readErr h =>
      intro hc
      simp only at hc
      have := ih.2 hc
      rw [h] at this
      exact absurd this (by decide)
    | closeSock h =>
      intro hc
      simp only at hc
      exact absurd hc (by decide)
    | rendezvous hr hc hs =>
      intro _
      rfl
    | skipWait hc hs =>
      intro _
      rw [ih.1] at hs
      exact absurd hs (by decide)

/-- Helper: a listener that was never started stays unstarted. -/
theorem udpl_neverStarted_inv (s : UdplState)
    (h : Relation.ReflTransGen UdplStep udplNeverStarted s) :
    s.started = false := by
  induction h with
  | refl => rfl
  | tail hr hstep ih => exact (udplStep_started_eq hstep).trans ih

/-- C10: for a listener on which `start()` was called, once `close()` has
returned the run goroutine has exited, and no step from such a state
forwards a frame (the forward counter can no longer change); for a
listener still in the starting state, once the socket is closed the close
call returns immediately — the return transition needs no rendezvous with
a run goroutine. -/
theorem udplClose_waits_for_run (s : UdplState) :
    (Relation.ReflTransGen UdplStep udplStarted s →
      s.closePC = ClosePC.returned →
      (s.runPC = RunPC.exited
        ∧ ∀ s', UdplStep s s' → s'.forwards = s.forwards))
    ∧ (Relation.ReflTransGen UdplStep udplNeverStarted s →
      s.closePC = ClosePC.sockClosed →
      UdplStep s { s with closePC := ClosePC.returned }) := by
  constructor
  · intro hreach hret
    have hinv := udpl_started_inv s hreach
    have hexit := hinv.2 hret
    refine ⟨hexit, ?_⟩
    intro s' hstep
    cases hstep with
    | readOk h =>
      rw [hexit] at h
      exact absurd h (by decide)
    | readErr h => rfl
    | closeSock h => rfl
    | rendezvous hr hc hs => rfl
    | skipWait hc hs => rfl
  · intro hreach hclosed
    exact UdplStep.skipWait s hclosed (udpl_neverStarted_inv s hreach)

/-- Witness for C10 at concrete traces: a started listener that saw a read
error, a socket close and the `chanDone` rendezvous has its run goroutine
exited and its forward counter frozen; a never-started listener whose
socket was just closed takes the immediate-return step. -/
theorem udplClose_waits_for_run_witness :
    (⟨true, true, RunPC.exited, ClosePC.returned, 0⟩ : UdplState).runPC
        = RunPC.exited
    ∧ UdplStep ⟨false, true, RunPC.notSpawned, ClosePC.sockClosed, 0⟩
        ⟨false, true, RunPC.notSpawned, ClosePC.returned, 0⟩ := by
  have hr1 : Relation.ReflTransGen UdplStep udplStarted
      ⟨true, true, RunPC.exited, ClosePC.returned, 0⟩ := by
    have s1 : UdplStep udplStarted ⟨true, false, RunPC.sendDone, ClosePC.idle, 0⟩ :=
      UdplStep.readErr udplStarted rfl
    have s2 : UdplStep ⟨true, false, RunPC.sendDone, ClosePC.idle, 0⟩
        ⟨true, true, RunPC.sendDone, ClosePC.sockClosed, 0⟩ :=
      UdplStep.closeSock _ rfl
    have s3 : UdplStep ⟨true, true, RunPC.sendDone, ClosePC.sockClosed, 0⟩
        ⟨true, true, RunPC.exited, ClosePC.returned, 0⟩ :=
      UdplStep.rendezvous _ rfl rfl rfl
    exact Relation.ReflTransGen.tail
      (Relation.ReflTransGen.tail (Relation.ReflTransGen.single s1) s2) s3
  have hr2 : Relation.ReflTransGen UdplStep udplNeverStarted
      ⟨false, true, RunPC.notSpawned, ClosePC.sockClosed, 0⟩ :=
    Relation.ReflTransGen.single (UdplStep.closeSock udplNeverStarted rfl)
  exact ⟨((udplClose_waits_for_run _).1 hr1 rfl).1,
    (udplClose_waits_for_run _).2 hr2 rfl⟩

end RtspProxy
